import Mathlib

/-
Verification of the stock-filter exporter (src/listing.py).

The program is a command-line tool with three commands: `list_tickers`,
`prices` and `market_prices`.  We embed it shallowly: pandas data frames
become column-oriented tables of strings, the external data provider
(FinanceDataReader) becomes a function-valued parameter that may fail, and
every observable effect of a run (console prints, file writes, directory
creations, provider calls, progress-bar events) is collected into a trace,
paired with how the run ends (normal return, clean exit, or an uncaught
error propagating).
-/

namespace StockFilter

/-- A tabular data frame, column-oriented: a list of labelled columns, each
column a list of cell values (cells are modelled as strings). -/
structure DataFrame where
  cols : List (String × List String)
deriving Repr, DecidableEq

/-- The column labels of a frame, in order (pandas `df.columns`). -/
def DataFrame.columns (df : DataFrame) : List String :=
  df.cols.map Prod.fst

/-- Whether a label occurs among the frame's columns (pandas `c in df.columns`). -/
def DataFrame.hasCol (df : DataFrame) (c : String) : Bool :=
  df.columns.contains c

/-- Column lookup (pandas `df[c]`); `none` models the KeyError raised when the
label is absent. -/
def DataFrame.getCol (df : DataFrame) (c : String) : Option (List String) :=
  (df.cols.find? (fun p => p.fst == c)).map Prod.snd

/-- The number of rows of a frame: the length of its first column (in pandas
all columns of a frame have equal length). -/
def DataFrame.nrows (df : DataFrame) : Nat :=
  match df.cols with
  | [] => 0
  | c :: _ => c.snd.length

/-- The i-th row of a frame, read across its columns. -/
def DataFrame.rowAt (df : DataFrame) (i : Nat) : List String :=
  df.cols.map (fun c => c.snd.getD i "")

/-- Join a list of fields with a separator. -/
def joinWith (sep : String) : List String → String
  | [] => ""
  | [a] => a
  | a :: rest => a ++ sep ++ joinWith sep rest

/-- The lines of the delimited serialization of a frame: one header line of
the column labels, then one line per row (pandas `df.to_csv`, modelled on the
frame's columns). -/
def DataFrame.csvLines (df : DataFrame) : List String :=
  joinWith "," df.columns ::
    (List.range df.nrows).map (fun i => joinWith "," (df.rowAt i))

/-- The delimited serialization of a frame, as written by `df.to_csv(path)`. -/
def DataFrame.toCsv (df : DataFrame) : String :=
  joinWith "\n" df.csvLines

/-- The last five rows of a frame (pandas `df.tail()`, default `n=5`). -/
def DataFrame.tail (df : DataFrame) : DataFrame :=
  ⟨df.cols.map (fun c => (c.fst, c.snd.drop (c.snd.length - 5)))⟩

/-- The console rendering of a frame, as produced by `print(df)`. -/
def DataFrame.render (df : DataFrame) : String :=
  df.toCsv

/-- One call made to the external data provider (FinanceDataReader). -/
inductive ProviderCall where
  | stockListing (market : String)
  | dataReader (code : String) (begin_ : String)
deriving Repr, DecidableEq

/-- The observable effects of one run: console output, file writes (path and
content, in order), directory creations, provider calls, progress bars
started (their `maxval`) and progress-bar updates, each list in program
order. -/
structure Trace where
  printed : List String := []
  writes : List (String × String) := []
  dirs : List String := []
  calls : List ProviderCall := []
  barStarts : List Nat := []
  barUpdates : List Nat := []
deriving Repr, DecidableEq

/-- Concatenation of two effect traces, componentwise and in order. -/
def Trace.append (t u : Trace) : Trace :=
  ⟨t.printed ++ u.printed, t.writes ++ u.writes, t.dirs ++ u.dirs,
   t.calls ++ u.calls, t.barStarts ++ u.barStarts, t.barUpdates ++ u.barUpdates⟩

/-- How a run ends: normal return, a clean `exit(code)`, or an uncaught
error propagating out of the process. -/
inductive Outcome where
  | ok
  | exited (code : Nat)
  | error
deriving Repr, DecidableEq

/-- The external data provider: `stockListing` models `fdr.StockListing`,
`dataReader` models `fdr.DataReader`; `none` models a raised error. -/
structure Provider where
  stockListing : String → Option DataFrame
  dataReader : String → String → Option DataFrame

/-- The environment a run executes in: the provider, and which file paths the
filesystem accepts writes to (`false` models an OS error raised by the
write). -/
structure World where
  fdr : Provider
  writeOk : String → Bool

/-- The fixed allow-list of supported market names (`market_list` in
listing.py). -/
def market_list : List String :=
  ["KRX", "KOSPI", "KOSDAQ", "KONEX", "KRX-MARCAP", "KRX-DESC", "KOSPI-DESC",
   "KOSDAQ-DESC", "KONEX-DESC", "NASDAQ", "NYSE", "AMEX", "SSE", "SZSE",
   "HKEX", "TSE", "HOSE", "KRX-DELISTING", "KRX-ADMINISTRATIVE", "S&P500",
   "SP500"]

/-- The identifier-column selection shared by `list_tickers` and
`market_prices` (listing.py lines 41 and 63):
`df["Code"] if "Code" in df.columns else df["Symbol"]`. -/
def selectIdent (df : DataFrame) : Option (List String) :=
  if df.hasCol "Code" then df.getCol "Code" else df.getCol "Symbol"

/-- The `list_tickers` command (listing.py lines 34-47): validate the market
against the allow-list, fetch the listing, project it onto (code, name) and
write it to `data/<market>.txt`. -/
def list_tickers (w : World) (market : String) : Trace × Outcome :=
  if market ∈ market_list then
    let t : Trace := { calls := [ProviderCall.stockListing market] }
    match w.fdr.stockListing market with
    | none => (t, Outcome.error)
    | some df =>
      match selectIdent df with
      | none => (t, Outcome.error)
      | some code =>
        match df.getCol "Name" with
        | none => (t, Outcome.error)
        | some name =>
          let out : DataFrame := ⟨[("code", code), ("name", name)]⟩
          let p : String := "data/" ++ market ++ ".txt"
          if w.writeOk p then
            ({ t with dirs := ["data"], writes := [(p, out.toCsv)] }, Outcome.ok)
          else
            ({ t with dirs := ["data"] }, Outcome.error)
  else
    ({ printed := [market ++ " market is not supports"] }, Outcome.exited 0)

/-- The `prices` command (listing.py lines 50-53): fetch the price history of
one code from 2018 on and print its last five rows; nothing is written. -/
def prices (w : World) (code : String) : Trace × Outcome :=
  let t : Trace := { calls := [ProviderCall.dataReader code "2018"] }
  match w.fdr.dataReader code "2018" with
  | none => (t, Outcome.error)
  | some df => ({ t with printed := [df.tail.render] }, Outcome.ok)

/-- The per-ticker loop of `market_prices` (listing.py lines 66-71): for each
code, fetch its price history, create the market directory, write the file
`data/<market>/<code>`, and advance the progress bar; a failed fetch or a
failed write raises and stops the loop. Returns the loop's own effect trace
and how it ends; `i` is the running `enumerate` index. -/
def pricesLoop (w : World) (market : String) (codes : List String) (i : Nat) :
    Trace × Outcome :=
  match codes with
  | [] => (({} : Trace), Outcome.ok)
  | code :: rest =>
    let callT : Trace := { calls := [ProviderCall.dataReader code "2018"] }
    match w.fdr.dataReader code "2018" with
    | none => (callT, Outcome.error)
    | some df =>
      let dirT : Trace := { callT with dirs := ["data/" ++ market] }
      let p : String := "data/" ++ market ++ "/" ++ code
      if w.writeOk p then
        let stepT : Trace := { dirT with writes := [(p, df.toCsv)], barUpdates := [i] }
        let r := pricesLoop w market rest (i + 1)
        (stepT.append r.1, r.2)
      else
        (dirT, Outcome.error)

/-- The `market_prices` command (listing.py lines 56-71): validate the market,
fetch the listing, select the ticker codes, start a progress bar bounded by
their count, then run the per-ticker loop. -/
def market_prices (w : World) (market : String) : Trace × Outcome :=
  if market ∈ market_list then
    let t : Trace := { calls := [ProviderCall.stockListing market] }
    match w.fdr.stockListing market with
    | none => (t, Outcome.error)
    | some df =>
      match selectIdent df with
      | none => (t, Outcome.error)
      | some codes =>
        let started : Trace := { t with barStarts := [codes.length] }
        let r := pricesLoop w market codes 0
        (started.append r.1, r.2)
  else
    ({ printed := [market ++ " market is not supports"] }, Outcome.exited 0)

/-- Replaying a list of file writes onto a filesystem (paths mapped to file
contents): each write replaces whatever was at its path before. -/
def applyWrites (fs : String → Option String) : List (String × String) →
    (String → Option String)
  | [] => fs
  | wr :: rest =>
    applyWrites (fun p => if p = wr.fst then some wr.snd else fs p) rest

/-- A sample listing table: three rows, columns Code, Name, Market. -/
def kospiDf : DataFrame :=
  ⟨[("Code", ["005930", "000660", "035420"]),
    ("Name", ["SamsungElec", "SKHynix", "NAVER"]),
    ("Market", ["KOSPI", "KOSPI", "KOSPI"])]⟩

/-- A sample price-history table with seven rows. -/
def priceDf : DataFrame :=
  ⟨[("Close", ["1", "2", "3", "4", "5", "6", "7"])]⟩

/-- A sample environment: the provider knows the KOSPI listing and every
price history, and every file write succeeds. -/
def wTest : World :=
  { fdr := { stockListing := fun m => if m = "KOSPI" then some kospiDf else none,
             dataReader := fun _ _ => some priceDf },
    writeOk := fun _ => true }

/-- A sample environment whose provider raises on every call. -/
def wDown : World :=
  { fdr := { stockListing := fun _ => none, dataReader := fun _ _ => none },
    writeOk := fun _ => true }

/-- A sample listing table containing the code BAD in second position. -/
def failDf : DataFrame :=
  ⟨[("Code", ["005930", "BAD", "035420"]),
    ("Name", ["SamsungElec", "Broken", "NAVER"])]⟩

/-- A sample environment whose KOSPI listing contains the code BAD, on which
every price fetch raises. -/
def wFail : World :=
  { fdr := { stockListing := fun m => if m = "KOSPI" then some failDf else none,
             dataReader := fun c _ => if c = "BAD" then none else some priceDf },
    writeOk := fun _ => true }

/-- A sample environment whose KONEX listing has zero rows. -/
def wEmpty : World :=
  { fdr := { stockListing := fun m =>
               if m = "KONEX" then some ⟨[("Code", []), ("Name", [])]⟩ else none,
             dataReader := fun _ _ => some priceDf },
    writeOk := fun _ => true }

/-- A sample listing table whose identifier column is labelled Symbol. -/
def nasdaqDf : DataFrame :=
  ⟨[("Symbol", ["AAPL", "MSFT"]), ("Name", ["Apple", "Microsoft"])]⟩

/-- A sample listing table with neither a Code nor a Symbol column. -/
def brokenDf : DataFrame :=
  ⟨[("Ticker", ["AAPL"]), ("Name", ["Apple"])]⟩

/-- A sample listing table carrying both a Code and a Symbol column. -/
def bothDf : DataFrame :=
  ⟨[("Code", ["X1"]), ("Symbol", ["Y1"]), ("Name", ["Z1"])]⟩

/-- A sample environment whose NASDAQ listing labels its identifier column
Symbol, whose NYSE listing has neither identifier column, and whose AMEX
listing carries both. -/
def wSymbol : World :=
  { fdr := { stockListing := fun m =>
               if m = "NASDAQ" then some nasdaqDf
               else if m = "NYSE" then some brokenDf
               else if m = "AMEX" then some bothDf
               else none,
             dataReader := fun _ _ => some priceDf },
    writeOk := fun _ => true }

/-- Indexing two equal-length columns over their row range is the zip of the
columns. -/
lemma range_map_getD (f : String → String → String) :
    ∀ (cs ns : List String), ns.length = cs.length →
      (List.range cs.length).map (fun i => f (cs.getD i "") (ns.getD i ""))
        = List.zipWith f cs ns
  | [], [], _ => by simp
  | [], _ :: _, h => by simp at h
  | _ :: _, [], h => by simp at h
  | c :: cs, n :: ns, h => by
    have ih := range_map_getD f cs ns (by simpa using h)
    rw [List.length_cons, List.range_succ_eq_map]
    simp only [List.map_cons, List.map_map, Function.comp_def, List.getD_cons_zero,
      List.getD_cons_succ, List.zipWith_cons_cons]
    rw [ih]

/-- The serialized lines of the two-column (code, name) frame built by
`list_tickers`: the header line `code,name`, then one `c,n` line per listing
row, in the provider's order. -/
lemma csvLines_pair (cs ns : List String) (h : ns.length = cs.length) :
    (DataFrame.mk [("code", cs), ("name", ns)]).csvLines
      = "code,name" :: List.zipWith (fun c n => c ++ "," ++ n) cs ns := by
  show _ :: (List.range cs.length).map _ = _
  rw [show (DataFrame.mk [("code", cs), ("name", ns)]).columns = ["code", "name"] from rfl]
  refine congrArg₂ _ rfl ?_
  have := range_map_getD (fun c n => c ++ "," ++ n) cs ns h
  simpa [DataFrame.rowAt, joinWith] using this

/-- A run of `list_tickers` on a supported market, when the provider answers
and the write succeeds, computed in full. -/
lemma list_tickers_run (w : World) (market : String) (df : DataFrame)
    (cs ns : List String)
    (hm : market ∈ market_list)
    (hdf : w.fdr.stockListing market = some df)
    (hsel : selectIdent df = some cs)
    (hname : df.getCol "Name" = some ns)
    (hw : w.writeOk ("data/" ++ market ++ ".txt") = true) :
    list_tickers w market =
      ({ calls := [ProviderCall.stockListing market], dirs := ["data"],
         writes := [("data/" ++ market ++ ".txt",
                     (DataFrame.mk [("code", cs), ("name", ns)]).toCsv)] },
       Outcome.ok) := by
  unfold list_tickers
  rw [if_pos hm, hdf]
  simp [hsel, hname, hw]

/-- A label contained in the first components of an association list is found
by lookup on those components. -/
lemma getCol_isSome_of_contains (l : List (String × List String)) (c : String)
    (h : (l.map Prod.fst).contains c = true) :
    (l.find? (fun p => p.fst == c)).isSome = true := by
  induction l with
  | nil => simp at h
  | cons a l ih =>
    rw [List.find?_cons]
    by_cases hc : a.fst == c
    · simp [hc]
    · simp only [List.map_cons, List.contains_cons] at h
      have : (c == a.fst) = false := by
        simp only [beq_eq_false_iff_ne, ne_eq]
        intro he
        exact absurd (by simp [he]) hc
      rw [this, Bool.false_or] at h
      simp [hc, ih h]

/-- Column membership and column lookup agree: `hasCol` is the definedness of
`getCol`. -/
lemma hasCol_eq_isSome (df : DataFrame) (c : String) :
    df.hasCol c = (df.getCol c).isSome := by
  unfold DataFrame.hasCol DataFrame.getCol DataFrame.columns
  induction df.cols with
  | nil => rfl
  | cons a l ih =>
    rw [List.find?_cons]
    by_cases hc : a.fst == c
    · have : (c == a.fst) = true := by
        simp only [beq_iff_eq] at hc ⊢
        exact hc.symm
      simp [hc, this]
    · have : (c == a.fst) = false := by
        simp only [beq_eq_false_iff_ne, ne_eq]
        intro he
        exact absurd (by simp [he]) hc
      simp only [List.map_cons, List.contains_cons, this, Bool.false_or, hc]
      simpa using ih

/-- Shifting a range-indexed map by one position. -/
lemma range_map_add_succ (i n : Nat) :
    (List.range (n + 1)).map (fun j => i + j)
      = i :: (List.range n).map (fun j => (i + 1) + j) := by
  rw [List.range_succ_eq_map]
  simp only [List.map_cons, List.map_map, Function.comp_def, Nat.add_zero]
  refine congrArg₂ _ rfl (List.map_congr_left fun j _ => by omega)

/-- When every fetch answers and every write succeeds, the per-ticker loop of
`market_prices` makes one provider call per code, writes one file per code at
`data/<market>/<code>` in order, updates the bar at consecutive positions
starting from its running index, prints nothing, and returns normally. -/
lemma pricesLoop_ok (w : World) (market : String) :
    ∀ (codes : List String) (i : Nat),
      (∀ c ∈ codes, (w.fdr.dataReader c "2018").isSome = true ∧
        w.writeOk ("data/" ++ market ++ "/" ++ c) = true) →
      (pricesLoop w market codes i).1.calls
          = codes.map (fun c => ProviderCall.dataReader c "2018") ∧
      (pricesLoop w market codes i).1.writes.map Prod.fst
          = codes.map (fun c => "data/" ++ market ++ "/" ++ c) ∧
      (pricesLoop w market codes i).1.barUpdates
          = (List.range codes.length).map (fun j => i + j) ∧
      (pricesLoop w market codes i).1.printed = [] ∧
      (pricesLoop w market codes i).1.dirs
          = codes.map (fun _ => "data/" ++ market) ∧
      (pricesLoop w market codes i).2 = Outcome.ok
  | [], i, _ => by simp [pricesLoop]
  | code :: rest, i, h => by
    obtain ⟨hfetch, hwrite⟩ := h code (List.mem_cons_self code rest)
    obtain ⟨df, hdf⟩ := Option.isSome_iff_exists.mp hfetch
    have ih := pricesLoop_ok w market rest (i + 1)
      (fun c hc => h c (List.mem_cons_of_mem code hc))
    unfold pricesLoop
    rw [hdf]
    simp only [hwrite, if_true, Trace.append, range_map_add_succ, List.length_cons,
      List.map_cons]
    refine ⟨?_, ?_, ?_, ?_, ?_, ?_⟩ <;> simp [ih.1, ih.2.1, ih.2.2.1, ih.2.2.2.1,
      ih.2.2.2.2.1, ih.2.2.2.2.2]

/-- The per-ticker loop never starts a progress bar of its own: the single
bar is started by `market_prices` before the loop. -/
lemma pricesLoop_barStarts (w : World) (market : String) :
    ∀ (codes : List String) (i : Nat),
      (pricesLoop w market codes i).1.barStarts = []
  | [], _ => rfl
  | code :: rest, i => by
    unfold pricesLoop
    cases w.fdr.dataReader code "2018" with
    | none => rfl
    | some df =>
      by_cases hw : w.writeOk ("data/" ++ market ++ "/" ++ code) = true
      · simp [hw, Trace.append, pricesLoop_barStarts w market rest (i + 1)]
      · simp [hw]

/-- When the first fetches and writes succeed and then the fetch or the write
for one code fails, the loop ends in an uncaught error having written exactly
the files of the earlier codes, updated the bar once per earlier code, and
called the provider for the earlier codes and the failing one only. -/
lemma pricesLoop_fail (w : World) (market : String) (bad : String)
    (post : List String)
    (hbad : w.fdr.dataReader bad "2018" = none ∨
      ((w.fdr.dataReader bad "2018").isSome = true ∧
        w.writeOk ("data/" ++ market ++ "/" ++ bad) = false)) :
    ∀ (pre : List String) (i : Nat),
      (∀ c ∈ pre, (w.fdr.dataReader c "2018").isSome = true ∧
        w.writeOk ("data/" ++ market ++ "/" ++ c) = true) →
      (pricesLoop w market (pre ++ bad :: post) i).2 = Outcome.error ∧
      (pricesLoop w market (pre ++ bad :: post) i).1.writes.map Prod.fst
          = pre.map (fun c => "data/" ++ market ++ "/" ++ c) ∧
      (pricesLoop w market (pre ++ bad :: post) i).1.barUpdates
          = (List.range pre.length).map (fun j => i + j) ∧
      (pricesLoop w market (pre ++ bad :: post) i).1.calls
          = (pre ++ [bad]).map (fun c => ProviderCall.dataReader c "2018")
  | [], i, _ => by
    rcases hbad with hnone | ⟨hfetch, hwfail⟩
    · rw [List.nil_append]
      unfold pricesLoop
      rw [hnone]
      simp
    · obtain ⟨df, hdf⟩ := Option.isSome_iff_exists.mp hfetch
      rw [List.nil_append]
      unfold pricesLoop
      rw [hdf]
      simp [hwfail]
  | code :: pre, i, h => by
    obtain ⟨hfetch, hwrite⟩ := h code (List.mem_cons_self code pre)
    obtain ⟨df, hdf⟩ := Option.isSome_iff_exists.mp hfetch
    have ih := pricesLoop_fail w market bad post hbad pre (i + 1)
      (fun c hc => h c (List.mem_cons_of_mem code hc))
    rw [List.cons_append]
    unfold pricesLoop
    rw [hdf]
    simp only [hwrite, if_true, Trace.append, List.length_cons, range_map_add_succ,
      List.map_cons]
    exact ⟨ih.1, by simp [ih.2.1], by simp [ih.2.2.1], by simp [ih.2.2.2]⟩

/-- Replaying writes leaves any path that none of them target unchanged. -/
lemma applyWrites_not_mem :
    ∀ (ws : List (String × String)) (fs : String → Option String) (p : String),
      p ∉ ws.map Prod.fst → applyWrites fs ws p = fs p
  | [], _, _, _ => rfl
  | wr :: rest, fs, p, h => by
    have hne : p ≠ wr.fst := fun he => h (by simp [he])
    have hrest : p ∉ rest.map Prod.fst := fun hm => h (by simp [hm])
    unfold applyWrites
    rw [applyWrites_not_mem rest _ p hrest]
    simp [hne]

/-- Every path targeted by some write holds a file after the writes are
replayed. -/
lemma applyWrites_mem :
    ∀ (ws : List (String × String)) (fs : String → Option String) (p : String),
      p ∈ ws.map Prod.fst → ∃ v, applyWrites fs ws p = some v
  | [], _, _, h => by simp at h
  | wr :: rest, fs, p, h => by
    by_cases hrest : p ∈ rest.map Prod.fst
    · exact applyWrites_mem rest _ p hrest
    · have hp : p = wr.fst := by
        rcases (by simpa using h) with h1 | h2
        · exact h1
        · exact absurd (by simpa using h2) hrest
      refine ⟨wr.snd, ?_⟩
      unfold applyWrites
      rw [applyWrites_not_mem rest _ p hrest]
      simp [hp]

/-- C1: for every market name outside the fixed allow-list, both
`list_tickers` and `market_prices` print a message naming the unsupported
market, exit with code 0, write no files, create no directories, and never
invoke the data provider. -/
theorem C1_unsupported_market (w : World) (market : String)
    (hm : market ∉ market_list) :
    (list_tickers w market).1.printed = [market ++ " market is not supports"] ∧
    (list_tickers w market).2 = Outcome.exited 0 ∧
    (list_tickers w market).1.writes = [] ∧
    (list_tickers w market).1.dirs = [] ∧
    (list_tickers w market).1.calls = [] ∧
    (market_prices w market).1.printed
      = [market ++ " market is not supports"] ∧
    (market_prices w market).2 = Outcome.exited 0 ∧
    (market_prices w market).1.writes = [] ∧
    (market_prices w market).1.dirs = [] ∧
    (market_prices w market).1.calls = [] := by
  unfold list_tickers market_prices
  rw [if_neg hm, if_neg hm]
  simp

/-- Witness for C1 at the spec's case-sensitive misspelling kospi. -/
theorem C1_unsupported_market_witness :
    "kospi" ∉ market_list ∧
    (list_tickers wTest "kospi").1.printed = ["kospi market is not supports"] ∧
    (list_tickers wTest "kospi").2 = Outcome.exited 0 ∧
    (market_prices wTest "kospi").1.writes = [] ∧
    (market_prices wTest "kospi").1.calls = [] := by
  have hm : "kospi" ∉ market_list := by decide
  have h := C1_unsupported_market wTest "kospi" hm
  exact ⟨hm, h.1, h.2.1, h.2.2.2.2.2.2.2.1, h.2.2.2.2.2.2.2.2.2⟩

/-- C2: for every allow-listed market, `list_tickers` writes exactly one
file, at `data/<market>.txt`, whose data rows are the one-to-one projection
of the provider's listing rows onto (code, name), preserving the provider's
row order and row count. -/
theorem C2_listing_projection (w : World) (market : String) (df : DataFrame)
    (cs ns : List String)
    (hm : market ∈ market_list)
    (hdf : w.fdr.stockListing market = some df)
    (hsel : selectIdent df = some cs)
    (hname : df.getCol "Name" = some ns)
    (hlen : ns.length = cs.length)
    (hw : w.writeOk ("data/" ++ market ++ ".txt") = true) :
    (list_tickers w market).1.writes
      = [("data/" ++ market ++ ".txt",
          joinWith "\n" ("code,name" ::
            List.zipWith (fun c n => c ++ "," ++ n) cs ns))] := by
  rw [list_tickers_run w market df cs ns hm hdf hsel hname hw]
  simp only [DataFrame.toCsv, csvLines_pair cs ns hlen]

/-- Witness for C2 on the three-row KOSPI sample. -/
theorem C2_listing_projection_witness :
    (list_tickers wTest "KOSPI").1.writes
      = [("data/KOSPI.txt",
          joinWith "\n" ("code,name" ::
            List.zipWith (fun c n => c ++ "," ++ n)
              ["005930", "000660", "035420"]
              ["SamsungElec", "SKHynix", "NAVER"]))] :=
  C2_listing_projection wTest "KOSPI" kospiDf
    ["005930", "000660", "035420"] ["SamsungElec", "SKHynix", "NAVER"]
    (by decide) rfl rfl rfl rfl rfl

/-- C3: for every valid market whose listing table has N rows, the file
written by `list_tickers` is one header line followed by N data rows, the
header being exactly code,name, so no other column appears in the file. -/
theorem C3_header_and_rows (w : World) (market : String) (df : DataFrame)
    (cs ns : List String)
    (hm : market ∈ market_list)
    (hdf : w.fdr.stockListing market = some df)
    (hsel : selectIdent df = some cs)
    (hname : df.getCol "Name" = some ns)
    (hlen : ns.length = cs.length)
    (hrows : cs.length = df.nrows)
    (hw : w.writeOk ("data/" ++ market ++ ".txt") = true) :
    ∃ rows : List String,
      (list_tickers w market).1.writes
        = [("data/" ++ market ++ ".txt",
            joinWith "\n" ("code,name" :: rows))] ∧
      rows.length = df.nrows := by
  refine ⟨List.zipWith (fun c n => c ++ "," ++ n) cs ns, ?_, ?_⟩
  · rw [list_tickers_run w market df cs ns hm hdf hsel hname hw]
    simp only [DataFrame.toCsv, csvLines_pair cs ns hlen]
  · rw [List.length_zipWith, hlen, Nat.min_self, hrows]

/-- Witness for C3: the KOSPI sample with three rows and columns Code,
Name, Market yields a header plus three rows. -/
theorem C3_header_and_rows_witness :
    ∃ rows : List String,
      (list_tickers wTest "KOSPI").1.writes
        = [("data/KOSPI.txt", joinWith "\n" ("code,name" :: rows))] ∧
      rows.length = kospiDf.nrows :=
  C3_header_and_rows wTest "KOSPI" kospiDf
    ["005930", "000660", "035420"] ["SamsungElec", "SKHynix", "NAVER"]
    (by decide) rfl rfl rfl rfl rfl rfl

/-- C4: identifier-column selection in both commands: a present Code column
is used even when Symbol is also present; with only Symbol present, Symbol
is used instead; with neither present the run ends in an uncaught error,
not in any designed error path. -/
theorem C4_ident_selection (w : World) (market : String) (df : DataFrame)
    (hm : market ∈ market_list)
    (hdf : w.fdr.stockListing market = some df) :
    (df.hasCol "Code" = true → selectIdent df = df.getCol "Code") ∧
    (df.hasCol "Code" = false → selectIdent df = df.getCol "Symbol") ∧
    (df.hasCol "Code" = false → df.hasCol "Symbol" = false →
      (list_tickers w market).2 = Outcome.error ∧
      (market_prices w market).2 = Outcome.error) := by
  refine ⟨fun hc => by simp [selectIdent, hc],
          fun hc => by simp [selectIdent, hc], ?_⟩
  intro hc hs
  have hsym : df.getCol "Symbol" = none := by
    have h := hasCol_eq_isSome df "Symbol"
    rw [hs] at h
    cases hgs : df.getCol "Symbol" with
    | none => rfl
    | some v => rw [hgs] at h; simp at h
  have hnone : selectIdent df = none := by simp [selectIdent, hc, hsym]
  constructor
  · unfold list_tickers
    rw [if_pos hm, hdf]
    simp [hnone]
  · unfold market_prices
    rw [if_pos hm, hdf]
    simp [hnone]

/-- Witness for C4: Code wins when both columns exist, Symbol is the
fallback, and a table with neither makes both commands fail. -/
theorem C4_ident_selection_witness :
    selectIdent bothDf = bothDf.getCol "Code" ∧
    selectIdent nasdaqDf = nasdaqDf.getCol "Symbol" ∧
    (list_tickers wSymbol "NYSE").2 = Outcome.error ∧
    (market_prices wSymbol "NYSE").2 = Outcome.error := by
  have h1 := (C4_ident_selection wSymbol "AMEX" bothDf (by decide) rfl).1
    (by decide)
  have h2 := (C4_ident_selection wSymbol "NASDAQ" nasdaqDf (by decide) rfl).2.1
    (by decide)
  have h3 := (C4_ident_selection wSymbol "NYSE" brokenDf (by decide) rfl).2.2
    (by decide) (by decide)
  exact ⟨h1, h2, h3.1, h3.2⟩

/-- C5: for every valid market whose listing yields N ticker codes,
`market_prices` performs exactly N price fetches after the listing fetch,
writes exactly N files, one per code at `data/<market>/<code>` in the
listing's order, and advances a progress bar bounded by N through positions
0..N-1, ending normally. -/
theorem C5_batch_export (w : World) (market : String) (df : DataFrame)
    (codes : List String)
    (hm : market ∈ market_list)
    (hdf : w.fdr.stockListing market = some df)
    (hsel : selectIdent df = some codes)
    (hfetch : ∀ c ∈ codes, (w.fdr.dataReader c "2018").isSome = true)
    (hwrite : ∀ c ∈ codes, w.writeOk ("data/" ++ market ++ "/" ++ c) = true) :
    (market_prices w market).1.calls
      = ProviderCall.stockListing market ::
          codes.map (fun c => ProviderCall.dataReader c "2018") ∧
    (market_prices w market).1.writes.map Prod.fst
      = codes.map (fun c => "data/" ++ market ++ "/" ++ c) ∧
    (market_prices w market).1.barStarts = [codes.length] ∧
    (market_prices w market).1.barUpdates = List.range codes.length ∧
    (market_prices w market).2 = Outcome.ok := by
  have hl := pricesLoop_ok w market codes 0
    (fun c hc => ⟨hfetch c hc, hwrite c hc⟩)
  unfold market_prices
  rw [if_pos hm, hdf]
  refine ⟨?_, ?_, ?_, ?_, ?_⟩ <;>
    simp [hsel, Trace.append, hl.1, hl.2.1, hl.2.2.1, hl.2.2.2.1,
      hl.2.2.2.2.1, hl.2.2.2.2.2, pricesLoop_barStarts w market codes 0]

/-- Witness for C5 on the three-ticker KOSPI sample. -/
theorem C5_batch_export_witness :
    (market_prices wTest "KOSPI").1.calls
      = ProviderCall.stockListing "KOSPI" ::
          (["005930", "000660", "035420"].map
            (fun c => ProviderCall.dataReader c "2018")) ∧
    (market_prices wTest "KOSPI").1.writes.map Prod.fst
      = ["005930", "000660", "035420"].map (fun c => "data/KOSPI/" ++ c) ∧
    (market_prices wTest "KOSPI").1.barStarts = [3] ∧
    (market_prices wTest "KOSPI").1.barUpdates = List.range 3 ∧
    (market_prices wTest "KOSPI").2 = Outcome.ok := by
  have h := C5_batch_export wTest "KOSPI" kospiDf ["005930", "000660", "035420"]
    (by decide) rfl rfl (fun c _ => rfl) (fun c _ => rfl)
  refine ⟨h.1, ?_, by simpa using h.2.2.1, by simpa using h.2.2.2.1, h.2.2.2.2⟩
  rw [h.2.1]
  decide

/-- C6: `prices code` requests the price history for that code from the
fixed start boundary 2018, prints the last five rows of the returned table,
writes no file and creates no directory. -/
theorem C6_prices_tail (w : World) (code : String) (df : DataFrame)
    (hdf : w.fdr.dataReader code "2018" = some df) :
    (prices w code).1.calls = [ProviderCall.dataReader code "2018"] ∧
    (prices w code).1.printed
      = [DataFrame.render
          ⟨df.cols.map (fun c => (c.fst, c.snd.drop (c.snd.length - 5)))⟩] ∧
    (prices w code).1.writes = [] ∧
    (prices w code).1.dirs = [] ∧
    (prices w code).2 = Outcome.ok := by
  unfold prices
  rw [hdf]
  simp [DataFrame.tail]

/-- Witness for C6 on a seven-row price table: rows three to seven are
printed. -/
theorem C6_prices_tail_witness :
    (prices wTest "005930").1.calls = [ProviderCall.dataReader "005930" "2018"] ∧
    (prices wTest "005930").1.printed
      = [DataFrame.render ⟨[("Close", ["3", "4", "5", "6", "7"])]⟩] ∧
    (prices wTest "005930").1.writes = [] ∧
    (prices wTest "005930").2 = Outcome.ok := by
  have h := C6_prices_tail wTest "005930" priceDf rfl
  refine ⟨h.1, ?_, h.2.2.1, h.2.2.2.2⟩
  rw [h.2.1]
  decide

/-- C7: running `list_tickers` twice for the same allow-listed market with
an unchanged provider response is a full overwrite with no merge or append:
replaying the run's writes a second time changes no path, and the file at
`data/<market>.txt` holds exactly the serialized projection either way. -/
theorem C7_rerun_overwrite (w : World) (market : String) (df : DataFrame)
    (cs ns : List String)
    (hm : market ∈ market_list)
    (hdf : w.fdr.stockListing market = some df)
    (hsel : selectIdent df = some cs)
    (hname : df.getCol "Name" = some ns)
    (hlen : ns.length = cs.length)
    (hw : w.writeOk ("data/" ++ market ++ ".txt") = true) :
    (∀ (fs : String → Option String) (p : String),
      applyWrites (applyWrites fs (list_tickers w market).1.writes)
          (list_tickers w market).1.writes p
        = applyWrites fs (list_tickers w market).1.writes p) ∧
    (∀ fs : String → Option String,
      applyWrites fs (list_tickers w market).1.writes
          ("data/" ++ market ++ ".txt")
        = some (joinWith "\n" ("code,name" ::
            List.zipWith (fun c n => c ++ "," ++ n) cs ns))) := by
  have hrun := list_tickers_run w market df cs ns hm hdf hsel hname hw
  have hcsv : (DataFrame.mk [("code", cs), ("name", ns)]).toCsv
      = joinWith "\n" ("code,name" ::
          List.zipWith (fun c n => c ++ "," ++ n) cs ns) := by
    rw [DataFrame.toCsv, csvLines_pair cs ns hlen]
  constructor
  · intro fs p
    rw [hrun]
    simp only [applyWrites]
    by_cases hp : p = "data/" ++ market ++ ".txt" <;> simp [hp]
  · intro fs
    rw [hrun]
    simp only [applyWrites]
    simp [hcsv]

/-- Witness for C7 on the KOSPI sample over the empty filesystem. -/
theorem C7_rerun_overwrite_witness :
    applyWrites (applyWrites (fun _ => none)
        (list_tickers wTest "KOSPI").1.writes)
      (list_tickers wTest "KOSPI").1.writes "data/KOSPI.txt"
      = applyWrites (fun _ => none)
          (list_tickers wTest "KOSPI").1.writes "data/KOSPI.txt" ∧
    applyWrites (fun _ => none) (list_tickers wTest "KOSPI").1.writes
        "data/KOSPI.txt"
      = some (joinWith "\n" ("code,name" ::
          List.zipWith (fun c n => c ++ "," ++ n)
            ["005930", "000660", "035420"]
            ["SamsungElec", "SKHynix", "NAVER"])) := by
  have h := C7_rerun_overwrite wTest "KOSPI" kospiDf
    ["005930", "000660", "035420"] ["SamsungElec", "SKHynix", "NAVER"]
    (by decide) rfl rfl rfl rfl rfl
  exact ⟨h.1 (fun _ => none) "data/KOSPI.txt", h.2 (fun _ => none)⟩

/-- C8: when the fetch or the write for the ticker at 0-based position k of
a `market_prices` batch fails, the run ends in an uncaught error; exactly
the files of the first k tickers were written, each still present after
replaying the run's writes on any filesystem; the bar advanced through
0..k-1; and the provider was called for the listing, the first k tickers
and the failing one only — no rollback, no resumption marker, no
skip-and-continue. -/
theorem C8_midbatch_failure (w : World) (market : String) (df : DataFrame)
    (pre : List String) (bad : String) (post : List String)
    (hm : market ∈ market_list)
    (hdf : w.fdr.stockListing market = some df)
    (hsel : selectIdent df = some (pre ++ bad :: post))
    (hpre : ∀ c ∈ pre, (w.fdr.dataReader c "2018").isSome = true ∧
      w.writeOk ("data/" ++ market ++ "/" ++ c) = true)
    (hbad : w.fdr.dataReader bad "2018" = none ∨
      ((w.fdr.dataReader bad "2018").isSome = true ∧
        w.writeOk ("data/" ++ market ++ "/" ++ bad) = false)) :
    (market_prices w market).2 = Outcome.error ∧
    (market_prices w market).1.writes.map Prod.fst
      = pre.map (fun c => "data/" ++ market ++ "/" ++ c) ∧
    (market_prices w market).1.barUpdates = List.range pre.length ∧
    (market_prices w market).1.calls
      = ProviderCall.stockListing market ::
          (pre ++ [bad]).map (fun c => ProviderCall.dataReader c "2018") ∧
    (∀ (fs : String → Option String) (c : String), c ∈ pre →
      ∃ v, applyWrites fs (market_prices w market).1.writes
            ("data/" ++ market ++ "/" ++ c) = some v) := by
  have hl := pricesLoop_fail w market bad post hbad pre 0 hpre
  have hws : (market_prices w market).1.writes.map Prod.fst
      = pre.map (fun c => "data/" ++ market ++ "/" ++ c) := by
    unfold market_prices
    rw [if_pos hm, hdf]
    simp [hsel, Trace.append, hl.2.1]
  refine ⟨?_, hws, ?_, ?_, ?_⟩
  · unfold market_prices
    rw [if_pos hm, hdf]
    simp [hsel, hl.1]
  · unfold market_prices
    rw [if_pos hm, hdf]
    simp [hsel, Trace.append, hl.2.2.1]
  · unfold market_prices
    rw [if_pos hm, hdf]
    simp [hsel, Trace.append, hl.2.2.2]
  · intro fs c hc
    apply applyWrites_mem
    rw [hws]
    exact List.mem_map_of_mem _ hc

/-- Witness for C8: the KOSPI sample whose second code BAD makes the fetch
fail after one file was written. -/
theorem C8_midbatch_failure_witness :
    (market_prices wFail "KOSPI").2 = Outcome.error ∧
    (market_prices wFail "KOSPI").1.writes.map Prod.fst
      = ["data/KOSPI/005930"] ∧
    (market_prices wFail "KOSPI").1.barUpdates = List.range 1 ∧
    ∃ v, applyWrites (fun _ => none) (market_prices wFail "KOSPI").1.writes
          "data/KOSPI/005930" = some v := by
  have h := C8_midbatch_failure wFail "KOSPI" failDf
    ["005930"] "BAD" ["035420"] (by decide) rfl rfl
    (by intro c hc
        rw [List.mem_singleton] at hc
        subst hc
        exact ⟨rfl, rfl⟩)
    (Or.inl rfl)
  refine ⟨h.1, ?_, by simpa using h.2.2.1, ?_⟩
  · rw [h.2.1]
    decide
  · have := h.2.2.2.2 (fun _ => none) "005930" (by decide)
    simpa using this

/-- C9: `prices` validates nothing: for every input string, even empty or
unknown ones, the provider is invoked directly with that string; a provider
error propagates as an uncaught error; and no input reaches a clean-exit
rejection path like the one the market commands have. -/
theorem C9_prices_no_validation (w : World) (code : String) :
    (prices w code).1.calls = [ProviderCall.dataReader code "2018"] ∧
    (w.fdr.dataReader code "2018" = none →
      (prices w code).2 = Outcome.error) ∧
    (∀ n : Nat, (prices w code).2 ≠ Outcome.exited n) := by
  unfold prices
  cases h : w.fdr.dataReader code "2018" <;> simp

/-- Witness for C9: the empty string is passed straight to a failing
provider and the error propagates. -/
theorem C9_prices_no_validation_witness :
    (prices wDown "").1.calls = [ProviderCall.dataReader "" "2018"] ∧
    (prices wDown "").2 = Outcome.error := by
  have h := C9_prices_no_validation wDown ""
  exact ⟨h.1, h.2.1 rfl⟩

/-- C10: for a valid market whose listing yields zero ticker codes,
`market_prices` writes no files and creates no directory — directory
creation sits inside the per-ticker loop — so every filesystem is left
unchanged. -/
theorem C10_empty_listing (w : World) (market : String) (df : DataFrame)
    (hm : market ∈ market_list)
    (hdf : w.fdr.stockListing market = some df)
    (hsel : selectIdent df = some []) :
    (market_prices w market).1.writes = [] ∧
    (market_prices w market).1.dirs = [] ∧
    (market_prices w market).2 = Outcome.ok ∧
    ∀ (fs : String → Option String) (p : String),
      applyWrites fs (market_prices w market).1.writes p = fs p := by
  unfold market_prices
  rw [if_pos hm, hdf]
  simp [hsel, pricesLoop, Trace.append, applyWrites]

/-- Witness for C10 on an empty KONEX listing over the empty filesystem. -/
theorem C10_empty_listing_witness :
    (market_prices wEmpty "KONEX").1.writes = [] ∧
    (market_prices wEmpty "KONEX").1.dirs = [] ∧
    (market_prices wEmpty "KONEX").2 = Outcome.ok ∧
    applyWrites (fun _ => none) (market_prices wEmpty "KONEX").1.writes
        "data/KONEX"
      = none := by
  have h := C10_empty_listing wEmpty "KONEX" ⟨[("Code", []), ("Name", [])]⟩
    (by decide) rfl rfl
  exact ⟨h.1, h.2.1, h.2.2.1, h.2.2.2 (fun _ => none) "data/KONEX"⟩

end StockFilter
